import Mathlib

/-!
Verification development for the OEM quote-calculator chatbot repository.

The Python sources are shallowly embedded:
* Python `float` arithmetic is modelled by exact rational arithmetic (`ℚ`);
* Python `int(x)` (truncation toward zero) is `pyInt`;
* Python `round(x, n)` (round-half-to-even) is `round1` / `round2`;
* the catalog loaded from `data/ingredient_db.json` is an abstract `Catalog`
  record of pure lookups (the calculator only ever reads it);
* the external search / LLM providers are oracles (`SearchEnv`, `LLMEnv`)
  recording, for each provider name, whether it is available and what its
  vendor call returns; the managers' dispatch logic is embedded exactly;
* a Python runtime failure (`ZeroDivisionError`) is `Option.none`, so
  fallible code returns `Option`.
-/

/-- Python `int(x)` applied to a float: truncation toward zero. -/
def pyInt (q : ℚ) : ℤ := if 0 ≤ q then ⌊q⌋ else ⌈q⌉

/-- Python `round(x)` to an integer: round half to even (banker's rounding). -/
def roundHalfEven (x : ℚ) : ℤ :=
  if Int.fract x < 1/2 then ⌊x⌋
  else if 1/2 < Int.fract x then ⌊x⌋ + 1
  else if ⌊x⌋ % 2 = 0 then ⌊x⌋ else ⌊x⌋ + 1

/-- Python `round(x, 1)`. -/
def round1 (x : ℚ) : ℚ := (roundHalfEven (10 * x) : ℚ) / 10

/-- Python `round(x, 2)`. -/
def round2 (x : ℚ) : ℚ := (roundHalfEven (100 * x) : ℚ) / 100

/-! ## Search provider layer (`app/providers/search.py`) -/

/-- Mirrors the `SearchResult` dataclass. -/
structure SearchResult where
  title : String
  url : String
  snippet : String
  source : String
deriving DecidableEq

/-- Oracle for the four vendor adapters: for each provider name, whether
`is_available()` holds and what `provider.search(query, max_results)`
returns for the (fixed) query of interest.  The adapters themselves
convert every vendor/network failure into `[]`, which is why a plain
result list models them. -/
structure SearchEnv where
  available : String → Bool
  results : String → List SearchResult

/-- Keys of `SearchManager.PROVIDERS`. -/
def SEARCH_PROVIDER_NAMES : List String := ["DDGS", "Brave", "Tavily", "Google"]

/-- Mirrors `SearchManager.FALLBACK_ORDER`. -/
def FALLBACK_ORDER : List String := ["DDGS", "Brave", "Tavily", "Google"]

/-- The `for name in self.FALLBACK_ORDER` loop at the end of
`SearchManager.search`: skip the already-tried provider, try each
available provider, stop at the first non-empty result. -/
def fallback_loop (env : SearchEnv) (skip : Option String) :
    List String → List SearchResult × String
  | [] => ([], "")
  | n :: rest =>
    if skip = some n then fallback_loop env skip rest
    else if env.available n then
      let rs := env.results n
      if rs ≠ [] then (rs, n) else fallback_loop env skip rest
    else fallback_loop env skip rest

/-- Mirrors `SearchManager.search`.  Note `if provider_name:` in Python is
false for both `None` and `""`, and inside the loop the skip test
`provider_name and name == provider_name` is likewise false for `""`. -/
def SearchManager.search (env : SearchEnv) (provider_name : Option String)
    (use_fallback : Bool) : List SearchResult × String :=
  match provider_name with
  | some pn =>
    if pn = "" then fallback_loop env none FALLBACK_ORDER
    else if pn ∈ SEARCH_PROVIDER_NAMES then
      if env.available pn then
        let rs := env.results pn
        if rs ≠ [] then (rs, pn)
        else if use_fallback then fallback_loop env (some pn) FALLBACK_ORDER
        else ([], pn)
      else fallback_loop env (some pn) FALLBACK_ORDER
    else if use_fallback then fallback_loop env (some pn) FALLBACK_ORDER
    else ([], "")
  | none => fallback_loop env none FALLBACK_ORDER

/-! ## LLM provider layer (`app/providers/llm.py`) -/

/-- Mirrors the `LLMResponse` dataclass. -/
structure LLMResponse where
  content : String
  model : String
  input_tokens : ℤ
  output_tokens : ℤ
  total_tokens : ℤ
deriving DecidableEq

/-- Keys of `LLMManager.PROVIDERS`. -/
def LLM_PROVIDER_NAMES : List String :=
  ["Gemini 2.0 Flash", "GPT-5-nano", "GPT-5-mini", "GPT-4o-mini"]

/-- The `model_id` class attribute of each provider class. -/
def llm_model_id : String → String
  | "Gemini 2.0 Flash" => "gemini-2.0-flash"
  | "GPT-5-nano" => "gpt-5-nano"
  | "GPT-5-mini" => "gpt-5-mini"
  | "GPT-4o-mini" => "gpt-4o-mini"
  | _ => ""

/-- Oracle for the LLM vendor adapters: availability (client construction
succeeded, i.e. credentials present and SDK importable) and the response a
successful `provider.generate(...)` call yields. -/
structure LLMEnv where
  available : String → Bool
  response : String → LLMResponse

/-- Mirrors `LLMManager.generate`: unknown provider and missing credentials
are answered with Korean error-message responses carrying zero token
counts; otherwise the call is delegated to the provider. -/
def LLMManager.generate (env : LLMEnv) (provider_name : String) : LLMResponse :=
  if provider_name ∉ LLM_PROVIDER_NAMES then
    ⟨"알 수 없는 Provider: " ++ provider_name, "", 0, 0, 0⟩
  else if env.available provider_name = false then
    ⟨provider_name ++ " API 키가 설정되지 않았습니다.", llm_model_id provider_name, 0, 0, 0⟩
  else env.response provider_name

/-! ## Quote calculator (`app/services/calculator.py`, `app/services/ingredient.py`) -/

/-- Mirrors the `ProductSpec` dataclass. -/
structure ProductSpec where
  product_type : String
  gram_per_pouch : ℚ
  pouch_per_box : ℤ
  boxes : ℤ
  ingredient_ratios : List (String × ℚ)
deriving DecidableEq

/-- Property `ProductSpec.total_pouches`. -/
def ProductSpec.total_pouches (s : ProductSpec) : ℤ := s.pouch_per_box * s.boxes

/-- Property `ProductSpec.total_kg`. -/
def ProductSpec.total_kg (s : ProductSpec) : ℚ :=
  s.gram_per_pouch * s.pouch_per_box * s.boxes / 1000

/-- The read-only data an `IngredientService` exposes to the calculator
(loaded once from `data/ingredient_db.json`, with the `.get` defaults of
`_apply_moq` already applied to the MOQ fields):
`price_of` is `get_price`, `stick_price` / `box_price` are the `"price"`
fields `get_packaging_cost` returns for `"스틱포장"` / `"단박스"`, and
`processing_price` is the `"price"` field of `get_processing_cost`. -/
structure Catalog where
  price_of : String → Option ℤ
  stick_price : Option ℤ
  box_price : Option ℤ
  processing_price : String → Option ℤ
  default_moq_boxes : ℤ
  min_production_kg : ℚ

/-- One entry of the `details` list built by
`IngredientService.calculate_ingredient_cost`. -/
structure IngredientDetail where
  name : String
  ratio : ℚ
  kg : ℚ
  price_per_kg : ℤ
  cost : ℤ
deriving DecidableEq

/-- The dict `IngredientService.calculate_ingredient_cost` returns. -/
structure IngredientCostResult where
  details : List IngredientDetail
  total_cost : ℤ
  missing_ingredients : List String
deriving DecidableEq

/-- The `for name, ratio in ratios.items()` loop of
`IngredientService.calculate_ingredient_cost`, processed left to right. -/
def ingredient_cost_loop (cat : Catalog) (total_kg : ℚ) :
    List (String × ℚ) → IngredientCostResult
  | [] => ⟨[], 0, []⟩
  | (name, ratio) :: rest =>
    let r := ingredient_cost_loop cat total_kg rest
    let kg := total_kg * (ratio / 100)
    match cat.price_of name with
    | none => ⟨r.details, r.total_cost, name :: r.missing_ingredients⟩
    | some price =>
      ⟨⟨name, ratio, round2 kg, price, pyInt (kg * price)⟩ :: r.details,
        pyInt (kg * price) + r.total_cost, r.missing_ingredients⟩

/-- Mirrors `IngredientService.calculate_ingredient_cost`. -/
def calculate_ingredient_cost (cat : Catalog) (ratios : List (String × ℚ))
    (total_kg : ℚ) : IngredientCostResult :=
  ingredient_cost_loop cat total_kg ratios

/-- The dict `QuoteCalculator._calculate_packaging_cost` returns. -/
structure PackagingResult where
  stick_count : ℤ
  stick_unit_price : ℤ
  stick_cost : ℤ
  box_count : ℤ
  box_unit_price : ℤ
  box_cost : ℤ
  total_cost : ℤ
deriving DecidableEq

/-- Mirrors `QuoteCalculator._calculate_packaging_cost`: a missing
packaging-cost record makes that component zero, not an error. -/
def calculate_packaging_cost (cat : Catalog) (spec : ProductSpec) : PackagingResult :=
  let stick_cost := match cat.stick_price with
    | some p => spec.total_pouches * p
    | none => 0
  let box_cost := match cat.box_price with
    | some p => spec.boxes * p
    | none => 0
  ⟨spec.total_pouches, cat.stick_price.getD 0, stick_cost,
    spec.boxes, cat.box_price.getD 0, box_cost, stick_cost + box_cost⟩

/-- The dict `QuoteCalculator._calculate_processing_cost` returns. -/
structure ProcessingResult where
  ptype : String
  kg : ℚ
  unit_price : ℤ
  total_cost : ℤ
  warning : Option String
deriving DecidableEq

/-- Mirrors `QuoteCalculator._calculate_processing_cost`. -/
def calculate_processing_cost (cat : Catalog) (spec : ProductSpec) : ProcessingResult :=
  match cat.processing_price spec.product_type with
  | none =>
    ⟨spec.product_type, spec.total_kg, 0, 0,
      some ("알 수 없는 제형: " ++ spec.product_type)⟩
  | some p =>
    ⟨spec.product_type, spec.total_kg, p, pyInt (spec.total_kg * p), none⟩

/-- The first (box-count) MOQ adjustment of `QuoteCalculator._apply_moq`. -/
def box_floor (cat : Catalog) (spec : ProductSpec) : ProductSpec :=
  if spec.boxes < cat.default_moq_boxes then
    { spec with boxes := cat.default_moq_boxes }
  else spec

/-- Mirrors `QuoteCalculator._apply_moq`.  The box-count floor is checked
first; the minimum-production-mass floor is then checked against the
possibly already-raised spec.  `none` models the `ZeroDivisionError`
Python raises in `min_kg / kg_per_box` when the per-box mass is zero. -/
def apply_moq (cat : Catalog) (spec : ProductSpec) : Option (Bool × ProductSpec) :=
  let step1 : Bool × ProductSpec :=
    if spec.boxes < cat.default_moq_boxes then
      (true, { spec with boxes := cat.default_moq_boxes })
    else (false, spec)
  let spec1 := step1.2
  if spec1.total_kg < cat.min_production_kg then
    let kg_per_box := spec1.gram_per_pouch * spec1.pouch_per_box / 1000
    if kg_per_box = 0 then none
    else
      let required_boxes := pyInt (cat.min_production_kg / kg_per_box) + 1
      some (true, { spec1 with boxes := max spec1.boxes required_boxes })
  else some (step1.1, spec1)

/-- Mirrors the `QuoteResult` dataclass. -/
structure QuoteResult where
  product_spec : ProductSpec
  ingredient_cost : ℤ
  packaging_cost : ℤ
  processing_cost : ℤ
  total_cost : ℤ
  price_per_box : ℤ
  moq_applied : Bool
  original_boxes : ℤ
  ingredient_details : List IngredientDetail
  packaging_details : PackagingResult
  processing_details : ProcessingResult
  warnings : List String
deriving DecidableEq

/-- The warning string `calculate` records when MOQ adjustment fired. -/
def moq_warning (before after : ℤ) : String :=
  "MOQ 적용: " ++ toString before ++ "박스 → " ++ toString after ++ "박스로 조정됨"

/-- The warning string `calculate` records for catalog misses. -/
def missing_warning (missing : List String) : String :=
  "DB에 없는 원료: " ++ String.intercalate ", " missing

/-- Mirrors `QuoteCalculator.calculate`. -/
def calculate (cat : Catalog) (spec : ProductSpec) : Option QuoteResult :=
  match apply_moq cat spec with
  | none => none
  | some (moq_applied, spec2) =>
    let warnings1 :=
      if moq_applied then [moq_warning spec.boxes spec2.boxes] else []
    let ing := calculate_ingredient_cost cat spec2.ingredient_ratios spec2.total_kg
    let warnings2 := warnings1 ++
      (if ing.missing_ingredients ≠ [] then [missing_warning ing.missing_ingredients] else [])
    let pack := calculate_packaging_cost cat spec2
    let proc := calculate_processing_cost cat spec2
    let warnings3 := warnings2 ++
      (match proc.warning with | some w => [w] | none => [])
    let total := ing.total_cost + pack.total_cost + proc.total_cost
    let price_per_box :=
      if 0 < spec2.boxes then pyInt ((total : ℚ) / (spec2.boxes : ℚ)) else 0
    some ⟨spec2, ing.total_cost, pack.total_cost, proc.total_cost, total,
      price_per_box, moq_applied, spec.boxes, ing.details, pack, proc, warnings3⟩

/-! ## Excipient recommendation (`IngredientService.recommend_excipients`) -/

/-- Mirrors `IngredientService.DEFAULT_EXCIPIENTS` (insertion order kept). -/
def DEFAULT_EXCIPIENTS : List (String × ℚ) :=
  [("결정셀룰로스", 10), ("정제포도당", 8), ("이산화규소", 1), ("스테아린산마그네슘", 1)]

/-- Python `max(result, key=result.get)` over a dict with distinct keys:
scans entries in insertion order, replacing the best only on a strictly
larger value, so the first maximal entry wins. -/
def py_max_entry : List (String × ℚ) → Option (String × ℚ)
  | [] => none
  | x :: xs => some (xs.foldl (fun best y => if best.2 < y.2 then y else best) x)

/-- Python `result[k] = v` on a dict with distinct keys (order kept). -/
def set_value (l : List (String × ℚ)) (k : String) (v : ℚ) : List (String × ℚ) :=
  l.map (fun e => if e.1 = k then (k, v) else e)

/-- Mirrors `IngredientService.recommend_excipients`. -/
def recommend_excipients (main_ratio : ℚ) : List (String × ℚ) :=
  if 100 ≤ main_ratio then []
  else
    let remaining := 100 - main_ratio
    let total_default := (DEFAULT_EXCIPIENTS.map (fun p => p.2)).sum
    let scale := remaining / total_default
    let result := DEFAULT_EXCIPIENTS.filterMap (fun p =>
      let scaled := round1 (p.2 * scale)
      if 0 < scaled then some (p.1, scaled) else none)
    let total_result := (result.map (fun p => p.2)).sum
    let diff := round1 (remaining - total_result)
    if diff ≠ 0 ∧ result ≠ [] then
      match py_max_entry result with
      | some me => set_value result me.1 (round1 (me.2 + diff))
      | none => result
    else result

/-! ## Default values used by claim witnesses and counterexamples -/

/-- A catalog holding only the MOQ rules the repository ships
(`default_moq_boxes = 2000`, `min_production_kg = 300`), with every lookup
empty. -/
def cat0 : Catalog := ⟨fun _ => none, none, none, fun _ => none, 2000, 300⟩

/-- A catalog with the shipped MOQ rules plus one priced ingredient, the
two packaging rates and one processing rate. -/
def catP : Catalog :=
  ⟨fun n => if n = "차전자피분말" then some 15000 else none,
   some 50, some 500,
   fun t => if t = "환" then some 12000 else none, 2000, 300⟩

/-- Fallback value used to project a `QuoteResult` out of an `Option`. -/
def defaultQuote : QuoteResult :=
  ⟨⟨"", 0, 0, 0, []⟩, 0, 0, 0, 0, 0, false, 0, [], ⟨0, 0, 0, 0, 0, 0, 0⟩,
   ⟨"", 0, 0, 0, none⟩, []⟩

/-- A pill spec: 5 g × 25 pouches per box (0.125 kg per box), 100 boxes. -/
def spec1cex : ProductSpec := ⟨"환", 5, 25, 100, []⟩

/-- A degenerate spec with zero grams per pouch. -/
def spec0 : ProductSpec := ⟨"환", 0, 30, 5000, []⟩

/-- A spec below the box-count floor but heavy enough at the floor. -/
def specB : ProductSpec := ⟨"환", 5, 100, 100, []⟩

/-- A spec above both MOQ floors with one priced ingredient. -/
def specN : ProductSpec := ⟨"환", 5, 100, 2500, [("차전자피분말", 100)]⟩

/-- A spec above both MOQ floors with one priced and one unknown ingredient. -/
def specM : ProductSpec := ⟨"환", 5, 100, 2500, [("차전자피분말", 80), ("Unobtainium", 20)]⟩

/-- A search oracle where only DDGS is available and every provider
returns no results. -/
def env9 : SearchEnv := ⟨fun n => n == "DDGS", fun _ => []⟩

/-- A search oracle where every provider is available and returns nothing. -/
def envEmptyAll : SearchEnv := ⟨fun _ => true, fun _ => []⟩

/-- A sample search hit attributed to Brave. -/
def srD : SearchResult := ⟨"t", "u", "s", "Brave"⟩

/-- A search oracle where only Brave is available and it returns one hit. -/
def envHit : SearchEnv :=
  ⟨fun n => n == "Brave", fun n => if n == "Brave" then [srD] else []⟩

/-- An LLM oracle with no credentials configured at all. -/
def env10 : LLMEnv := ⟨fun _ => false, fun _ => ⟨"", "", 0, 0, 0⟩⟩

/-! ## Helper lemmas about the numeric primitives -/

theorem pyInt_of_nonneg {q : ℚ} (h : 0 ≤ q) : pyInt q = ⌊q⌋ := if_pos h

theorem lt_pyInt_add_one (q : ℚ) : q < pyInt q + 1 := by
  unfold pyInt
  split_ifs with h
  · exact Int.lt_floor_add_one q
  · have := Int.le_ceil q
    linarith

theorem rhe_dist (x : ℚ) : |x - (roundHalfEven x : ℚ)| ≤ 1/2 := by
  have h0 : 0 ≤ Int.fract x := Int.fract_nonneg x
  have h1 : Int.fract x < 1 := Int.fract_lt_one x
  have hf : Int.fract x = x - (⌊x⌋ : ℚ) := rfl
  unfold roundHalfEven
  split_ifs with hlt hgt heven <;> rw [abs_le] <;> push_cast <;>
    constructor <;> linarith [hf]

theorem rhe_int (k : ℤ) : roundHalfEven (k : ℚ) = k := by
  unfold roundHalfEven
  rw [Int.fract_intCast, Int.floor_intCast]
  norm_num

theorem rhe_mono {x y : ℚ} (h : x ≤ y) : roundHalfEven x ≤ roundHalfEven y := by
  rcases lt_or_le ⌊x⌋ ⌊y⌋ with hf | hf
  · have hx : roundHalfEven x ≤ ⌊x⌋ + 1 := by
      unfold roundHalfEven; split_ifs <;> omega
    have hy : ⌊y⌋ ≤ roundHalfEven y := by
      unfold roundHalfEven; split_ifs <;> omega
    omega
  · have hfe : ⌊x⌋ = ⌊y⌋ := le_antisymm (Int.floor_mono h) hf
    have hfr : Int.fract x ≤ Int.fract y := by
      unfold Int.fract
      rw [hfe]
      linarith
    unfold roundHalfEven
    rw [hfe]
    split_ifs <;> first | omega | linarith

theorem rhe_nonneg {x : ℚ} (h : 0 ≤ x) : 0 ≤ roundHalfEven x := by
  have := rhe_mono h
  rwa [show ((0 : ℚ)) = ((0 : ℤ) : ℚ) by norm_num, rhe_int] at this

theorem round1_dist (x : ℚ) : |x - round1 x| ≤ 1/20 := by
  have h := rhe_dist (10 * x)
  unfold round1
  rw [abs_le] at h ⊢
  obtain ⟨ha, hb⟩ := h
  constructor <;> linarith

theorem round1_eq_zero_bound {x : ℚ} (h : round1 x = 0) : |x| ≤ 1/20 := by
  have := round1_dist x
  rwa [h, sub_zero] at this

theorem round1_mono {x y : ℚ} (h : x ≤ y) : round1 x ≤ round1 y := by
  unfold round1
  have : roundHalfEven (10 * x) ≤ roundHalfEven (10 * y) := rhe_mono (by linarith)
  have hc : (roundHalfEven (10 * x) : ℚ) ≤ (roundHalfEven (10 * y) : ℚ) := by
    exact_mod_cast this
  linarith

theorem round1_nonneg {x : ℚ} (h : 0 ≤ x) : 0 ≤ round1 x := by
  unfold round1
  have := rhe_nonneg (show (0:ℚ) ≤ 10 * x by linarith)
  positivity

theorem round1_add_round1 (x y : ℚ) : round1 (round1 x + round1 y) = round1 x + round1 y := by
  unfold round1
  rw [show (10:ℚ) * ((roundHalfEven (10 * x) : ℚ) / 10 + (roundHalfEven (10 * y) : ℚ) / 10)
      = ((roundHalfEven (10 * x) + roundHalfEven (10 * y) : ℤ) : ℚ) by push_cast; ring,
    rhe_int]
  push_cast
  ring

/-! ## Structural lemmas about the embedded functions -/

theorem box_floor_gram (cat : Catalog) (spec : ProductSpec) :
    (box_floor cat spec).gram_per_pouch = spec.gram_per_pouch := by
  unfold box_floor
  split_ifs <;> rfl

theorem box_floor_pouch (cat : Catalog) (spec : ProductSpec) :
    (box_floor cat spec).pouch_per_box = spec.pouch_per_box := by
  unfold box_floor
  split_ifs <;> rfl

theorem box_floor_ratios (cat : Catalog) (spec : ProductSpec) :
    (box_floor cat spec).ingredient_ratios = spec.ingredient_ratios := by
  unfold box_floor
  split_ifs <;> rfl

theorem apply_moq_no_adjust (cat : Catalog) (spec : ProductSpec)
    (h1 : ¬ spec.boxes < cat.default_moq_boxes)
    (h2 : ¬ spec.total_kg < cat.min_production_kg) :
    apply_moq cat spec = some (false, spec) := by
  unfold apply_moq
  rw [if_neg h1]
  exact if_neg h2

theorem apply_moq_box_only (cat : Catalog) (spec : ProductSpec)
    (h1 : spec.boxes < cat.default_moq_boxes)
    (h2 : ¬ ({ spec with boxes := cat.default_moq_boxes } : ProductSpec).total_kg
        < cat.min_production_kg) :
    apply_moq cat spec = some (true, { spec with boxes := cat.default_moq_boxes }) := by
  unfold apply_moq
  rw [if_pos h1]
  exact if_neg h2

theorem apply_moq_mass (cat : Catalog) (spec : ProductSpec)
    (hm : (box_floor cat spec).total_kg < cat.min_production_kg)
    (hkg : spec.gram_per_pouch * spec.pouch_per_box / 1000 ≠ 0) :
    apply_moq cat spec = some (true, { box_floor cat spec with
      boxes := max (box_floor cat spec).boxes
        (pyInt (cat.min_production_kg /
          (spec.gram_per_pouch * spec.pouch_per_box / 1000)) + 1) }) := by
  unfold box_floor at hm ⊢
  unfold apply_moq
  by_cases h1 : spec.boxes < cat.default_moq_boxes
  · simp only [if_pos h1] at hm ⊢
    rw [if_pos hm, if_neg hkg]
  · simp only [if_neg h1] at hm ⊢
    rw [if_pos hm, if_neg hkg]

theorem calculate_eq (cat : Catalog) (spec : ProductSpec) (a : Bool) (s2 : ProductSpec)
    (h : apply_moq cat spec = some (a, s2)) :
    calculate cat spec =
      some ⟨s2,
        (calculate_ingredient_cost cat s2.ingredient_ratios s2.total_kg).total_cost,
        (calculate_packaging_cost cat s2).total_cost,
        (calculate_processing_cost cat s2).total_cost,
        (calculate_ingredient_cost cat s2.ingredient_ratios s2.total_kg).total_cost +
          (calculate_packaging_cost cat s2).total_cost +
          (calculate_processing_cost cat s2).total_cost,
        (if 0 < s2.boxes then
          pyInt ((((calculate_ingredient_cost cat s2.ingredient_ratios s2.total_kg).total_cost +
            (calculate_packaging_cost cat s2).total_cost +
            (calculate_processing_cost cat s2).total_cost : ℤ) : ℚ) / (s2.boxes : ℚ))
         else 0),
        a, spec.boxes,
        (calculate_ingredient_cost cat s2.ingredient_ratios s2.total_kg).details,
        calculate_packaging_cost cat s2,
        calculate_processing_cost cat s2,
        (if a then [moq_warning spec.boxes s2.boxes] else []) ++
          (if (calculate_ingredient_cost cat s2.ingredient_ratios s2.total_kg).missing_ingredients
              ≠ [] then
            [missing_warning
              (calculate_ingredient_cost cat s2.ingredient_ratios s2.total_kg).missing_ingredients]
           else []) ++
          (match (calculate_processing_cost cat s2).warning with
           | some w => [w]
           | none => [])⟩ := by
  unfold calculate
  rw [h]

theorem apply_moq_isSome (cat : Catalog) (spec : ProductSpec)
    (h : spec.gram_per_pouch * spec.pouch_per_box ≠ 0) :
    (apply_moq cat spec).isSome := by
  have hkg : spec.gram_per_pouch * spec.pouch_per_box / 1000 ≠ 0 := by
    intro hc
    exact h (by field_simp at hc; linarith)
  unfold apply_moq
  by_cases h1 : spec.boxes < cat.default_moq_boxes <;>
    [rw [if_pos h1]; rw [if_neg h1]] <;> dsimp only <;> split_ifs <;> rfl

theorem apply_moq_ratios_preserved (cat : Catalog) (spec : ProductSpec)
    (a : Bool) (s2 : ProductSpec) (h : apply_moq cat spec = some (a, s2)) :
    s2.ingredient_ratios = spec.ingredient_ratios := by
  unfold apply_moq at h
  by_cases h1 : spec.boxes < cat.default_moq_boxes <;>
    [rw [if_pos h1] at h; rw [if_neg h1] at h] <;> dsimp only at h <;>
    split_ifs at h <;> simp only [Option.some.injEq, Prod.mk.injEq] at h <;>
    rw [← h.2]

theorem ing_loop_costs (cat : Catalog) (K : ℚ) :
    ∀ rs : List (String × ℚ),
      (ingredient_cost_loop cat K rs).details.map (fun d => d.cost) =
        rs.filterMap (fun p => (cat.price_of p.1).map
          (fun pr => pyInt (K * (p.2 / 100) * pr))) ∧
      (ingredient_cost_loop cat K rs).total_cost =
        (rs.filterMap (fun p => (cat.price_of p.1).map
          (fun pr => pyInt (K * (p.2 / 100) * pr)))).sum
  | [] => by simp [ingredient_cost_loop]
  | (n, r) :: rest => by
    obtain ⟨ih1, ih2⟩ := ing_loop_costs cat K rest
    cases h : cat.price_of n <;>
      simp [ingredient_cost_loop, h, ih1, ih2, List.filterMap_cons]

theorem ing_loop_missing_mem (cat : Catalog) (K : ℚ) (n : String) (r : ℚ)
    (hnone : cat.price_of n = none) :
    ∀ rs : List (String × ℚ), (n, r) ∈ rs →
      n ∈ (ingredient_cost_loop cat K rs).missing_ingredients
  | (m, s) :: rest, hmem => by
    rcases List.mem_cons.mp hmem with heq | htail
    · obtain ⟨rfl, rfl⟩ := Prod.mk.injEq .. ▸ heq
      simp [ingredient_cost_loop, hnone]
    · have ih := ing_loop_missing_mem cat K n r hnone rest htail
      cases h : cat.price_of m <;> simp [ingredient_cost_loop, h, ih]

theorem ing_loop_details_priced (cat : Catalog) (K : ℚ) :
    ∀ rs : List (String × ℚ), ∀ d ∈ (ingredient_cost_loop cat K rs).details,
      cat.price_of d.name ≠ none
  | (m, s) :: rest, d, hd => by
    revert hd
    cases h : cat.price_of m with
    | none =>
      intro hd
      simp only [ingredient_cost_loop, h] at hd
      exact ing_loop_details_priced cat K rest d hd
    | some p =>
      intro hd
      simp only [ingredient_cost_loop, h] at hd
      rcases List.mem_cons.mp hd with heq | htail
      · subst heq
        simp [h]
      · exact ing_loop_details_priced cat K rest d htail

theorem ing_loop_missing_indep (cat : Catalog) (K1 K2 : ℚ) :
    ∀ rs : List (String × ℚ),
      (ingredient_cost_loop cat K1 rs).missing_ingredients =
        (ingredient_cost_loop cat K2 rs).missing_ingredients
  | [] => rfl
  | (m, s) :: rest => by
    have ih := ing_loop_missing_indep cat K1 K2 rest
    cases h : cat.price_of m <;> simp [ingredient_cost_loop, h, ih]

theorem ing_loop_skip (cat : Catalog) (K : ℚ) (n : String) (r : ℚ)
    (hnone : cat.price_of n = none) :
    ∀ rs1 rs2 : List (String × ℚ),
      (ingredient_cost_loop cat K (rs1 ++ (n, r) :: rs2)).total_cost =
        (ingredient_cost_loop cat K (rs1 ++ rs2)).total_cost
  | [], rs2 => by simp [ingredient_cost_loop, hnone]
  | (m, s) :: rest, rs2 => by
    have ih := ing_loop_skip cat K n r hnone rest rs2
    cases h : cat.price_of m <;> simp [ingredient_cost_loop, h, ih]

theorem fallback_loop_all_empty (env : SearchEnv) (skip : Option String) :
    ∀ l : List String, (∀ n ∈ l, env.results n = []) →
      fallback_loop env skip l = ([], "")
  | [], _ => rfl
  | n :: rest, h => by
    have ih := fallback_loop_all_empty env skip rest
      (fun m hm => h m (List.mem_cons_of_mem n hm))
    have hn : env.results n = [] := h n (List.mem_cons_self n rest)
    unfold fallback_loop
    split_ifs with h1 h2 <;> simp [hn, ih]

theorem fallback_loop_first_hit (env : SearchEnv) (skip : Option String)
    (m : String) (hskip : skip ≠ some m) (hav : env.available m = true)
    (hres : env.results m ≠ []) :
    ∀ l1 l2 : List String,
      (∀ x ∈ l1, skip = some x ∨ env.available x = false ∨ env.results x = []) →
      fallback_loop env skip (l1 ++ m :: l2) = (env.results m, m)
  | [], l2, _ => by
    show fallback_loop env skip (m :: l2) = _
    unfold fallback_loop
    rw [if_neg hskip, if_pos hav]
    simp [hres]
  | x :: rest, l2, h => by
    have ih := fallback_loop_first_hit env skip m hskip hav hres rest l2
      (fun y hy => h y (List.mem_cons_of_mem x hy))
    have hx := h x (List.mem_cons_self x rest)
    show fallback_loop env skip (x :: (rest ++ m :: l2)) = _
    unfold fallback_loop
    rcases hx with hx | hx | hx
    · rw [if_pos hx]
      exact ih
    · split_ifs with h1 <;> simp [hx, ih] at *
    · split_ifs with h1 h2 <;> simp [hx, ih] at *

theorem foldl_best_const (b : String × ℚ) :
    ∀ l : List (String × ℚ), (∀ e ∈ l, e.2 ≤ b.2) →
      l.foldl (fun best y => if best.2 < y.2 then y else best) b = b
  | [], _ => rfl
  | y :: rest, h => by
    have hy : y.2 ≤ b.2 := h y (List.mem_cons_self y rest)
    show List.foldl _ (if b.2 < y.2 then y else b) rest = b
    rw [if_neg (not_lt.mpr hy)]
    exact foldl_best_const b rest (fun e he => h e (List.mem_cons_of_mem y he))

theorem py_max_entry_head (k1 : String) (v : ℚ) (rest : List (String × ℚ))
    (hmax : ∀ e ∈ rest, e.2 ≤ v) :
    py_max_entry ((k1, v) :: rest) = some (k1, v) := by
  show some (rest.foldl (fun best y => if best.2 < y.2 then y else best) (k1, v)) = some (k1, v)
  rw [foldl_best_const (k1, v) rest hmax]

theorem map_set_value_miss (k1 : String) (v' : ℚ) :
    ∀ l : List (String × ℚ), (∀ e ∈ l, e.1 ≠ k1) →
      l.map (fun e => if e.1 = k1 then (k1, v') else e) = l
  | [], _ => rfl
  | e :: rest, h => by
    have he : e.1 ≠ k1 := h e (List.mem_cons_self e rest)
    simp only [List.map_cons, if_neg he]
    rw [map_set_value_miss k1 v' rest (fun x hx => h x (List.mem_cons_of_mem e hx))]

theorem set_value_head (k1 : String) (v v' : ℚ) (rest : List (String × ℚ))
    (hkeys : ∀ e ∈ rest, e.1 ≠ k1) :
    set_value ((k1, v) :: rest) k1 v' = (k1, v') :: rest := by
  unfold set_value
  rw [List.map_cons, map_set_value_miss k1 v' rest hkeys]
  simp

/-! ## Claim theorems -/

/-- C3: for every spec with boxes at or above the box-count floor and total
mass at or above the mass floor, `calculate` leaves the box count unchanged
and the returned `moq_applied` flag is false. -/
theorem moq_no_adjustment (cat : Catalog) (spec : ProductSpec) (q : QuoteResult)
    (h1 : cat.default_moq_boxes ≤ spec.boxes)
    (h2 : cat.min_production_kg ≤ spec.total_kg)
    (hq : calculate cat spec = some q) :
    q.product_spec.boxes = spec.boxes ∧ q.moq_applied = false := by
  have ha := apply_moq_no_adjust cat spec (not_lt.mpr h1) (not_lt.mpr h2)
  rw [calculate_eq cat spec false spec ha] at hq
  injection hq with hq
  subst hq
  exact ⟨rfl, rfl⟩

theorem moq_no_adjustment_witness :
    catP.default_moq_boxes ≤ specN.boxes ∧
    catP.min_production_kg ≤ specN.total_kg ∧
    ((calculate catP specN).getD defaultQuote).product_spec.boxes = specN.boxes ∧
    ((calculate catP specN).getD defaultQuote).moq_applied = false := by
  have h1 : catP.default_moq_boxes ≤ specN.boxes := by norm_num [catP, specN]
  have h2 : catP.min_production_kg ≤ specN.total_kg := by
    norm_num [catP, specN, ProductSpec.total_kg]
  have ha := apply_moq_no_adjust catP specN (not_lt.mpr h1) (not_lt.mpr h2)
  have hc := calculate_eq catP specN false specN ha
  have hq : calculate catP specN = some ((calculate catP specN).getD defaultQuote) := by
    rw [hc]
    rfl
  have main := moq_no_adjustment catP specN _ h1 h2 hq
  exact ⟨h1, h2, main.1, main.2⟩

/-- C2: for every spec with boxes below the box-count floor whose mass at
the floor already satisfies the mass floor, the result references a spec
with exactly `default_moq_boxes` boxes, `moq_applied` is true, and the
warning naming the before/after box counts is recorded. -/
theorem moq_box_floor_raises (cat : Catalog) (spec : ProductSpec) (q : QuoteResult)
    (h1 : spec.boxes < cat.default_moq_boxes)
    (h2 : cat.min_production_kg ≤
      ({ spec with boxes := cat.default_moq_boxes } : ProductSpec).total_kg)
    (hq : calculate cat spec = some q) :
    q.product_spec.boxes = cat.default_moq_boxes ∧ q.moq_applied = true ∧
    moq_warning spec.boxes cat.default_moq_boxes ∈ q.warnings := by
  have ha := apply_moq_box_only cat spec h1 (not_lt.mpr h2)
  rw [calculate_eq _ _ _ _ ha] at hq
  injection hq with hq
  subst hq
  refine ⟨rfl, rfl, ?_⟩
  exact List.mem_append_left _ (List.mem_append_left _ (List.mem_singleton_self _))

theorem moq_box_floor_raises_witness :
    specB.boxes < cat0.default_moq_boxes ∧
    cat0.min_production_kg ≤
      ({ specB with boxes := cat0.default_moq_boxes } : ProductSpec).total_kg ∧
    ((calculate cat0 specB).getD defaultQuote).product_spec.boxes = cat0.default_moq_boxes ∧
    ((calculate cat0 specB).getD defaultQuote).moq_applied = true ∧
    moq_warning specB.boxes cat0.default_moq_boxes ∈
      ((calculate cat0 specB).getD defaultQuote).warnings := by
  have h1 : specB.boxes < cat0.default_moq_boxes := by norm_num [cat0, specB]
  have h2 : cat0.min_production_kg ≤
      ({ specB with boxes := cat0.default_moq_boxes } : ProductSpec).total_kg := by
    norm_num [cat0, specB, ProductSpec.total_kg]
  have ha := apply_moq_box_only cat0 specB h1 (not_lt.mpr h2)
  have hc := calculate_eq _ _ _ _ ha
  have hq : calculate cat0 specB = some ((calculate cat0 specB).getD defaultQuote) := by
    rw [hc]
    rfl
  have main := moq_box_floor_raises cat0 specB _ h1 h2 hq
  exact ⟨h1, h2, main.1, main.2.1, main.2.2⟩

/-- C5: for every QuoteResult `calculate` produces, `price_per_box` is the
truncated division of `total_cost` by the adjusted box count when that
count is positive, and is zero when the count is zero instead of a
division-by-zero failure. -/
theorem price_per_box_safe (cat : Catalog) (spec : ProductSpec) (q : QuoteResult)
    (hq : calculate cat spec = some q) :
    (q.product_spec.boxes = 0 → q.price_per_box = 0) ∧
    (0 < q.product_spec.boxes →
      q.price_per_box = pyInt ((q.total_cost : ℚ) / (q.product_spec.boxes : ℚ))) := by
  cases ha : apply_moq cat spec with
  | none =>
    unfold calculate at hq
    rw [ha] at hq
    cases hq
  | some p =>
    obtain ⟨a, s2⟩ := p
    rw [calculate_eq _ _ _ _ ha] at hq
    injection hq with hq
    subst hq
    constructor
    · intro h0
      have h0' : s2.boxes = 0 := h0
      dsimp only
      rw [if_neg (by rw [h0']; exact lt_irrefl 0)]
    · intro hpos
      have hpos' : 0 < s2.boxes := hpos
      dsimp only
      rw [if_pos hpos']

theorem price_per_box_safe_witness :
    ((calculate catP specN).getD defaultQuote).product_spec.boxes ≠ 0 ∧
    (0 < ((calculate catP specN).getD defaultQuote).product_spec.boxes →
      ((calculate catP specN).getD defaultQuote).price_per_box =
        pyInt ((((calculate catP specN).getD defaultQuote).total_cost : ℚ) /
          (((calculate catP specN).getD defaultQuote).product_spec.boxes : ℚ))) := by
  have h1 : catP.default_moq_boxes ≤ specN.boxes := by norm_num [catP, specN]
  have h2 : catP.min_production_kg ≤ specN.total_kg := by
    norm_num [catP, specN, ProductSpec.total_kg]
  have ha := apply_moq_no_adjust catP specN (not_lt.mpr h1) (not_lt.mpr h2)
  have hc := calculate_eq catP specN false specN ha
  have hq : calculate catP specN = some ((calculate catP specN).getD defaultQuote) := by
    rw [hc]
    rfl
  have main := price_per_box_safe catP specN _ hq
  refine ⟨?_, main.2⟩
  have hb : ((calculate catP specN).getD defaultQuote).product_spec.boxes = specN.boxes := by
    rw [hc]
    rfl
  rw [hb]
  norm_num [specN]

/-- C8 counterexample: a spec with zero grams per pouch drives
`_apply_moq` into `min_kg / kg_per_box` with `kg_per_box = 0`, so
`calculate` raises `ZeroDivisionError` (modelled as `none`) instead of
returning a degraded result. -/
theorem calculate_crash_counterexample : calculate cat0 spec0 = none := by
  have h1 : ¬ spec0.boxes < cat0.default_moq_boxes := by norm_num [cat0, spec0]
  have h2 : spec0.total_kg < cat0.min_production_kg := by
    norm_num [cat0, spec0, ProductSpec.total_kg]
  have h3 : spec0.gram_per_pouch * spec0.pouch_per_box / 1000 = 0 := by norm_num [spec0]
  have ha : apply_moq cat0 spec0 = none := by
    unfold apply_moq
    rw [if_neg h1]
    dsimp only
    rw [if_pos h2, if_pos h3]
  unfold calculate
  rw [ha]

/-- C8 (amended): for every spec with nonzero per-box mass, `calculate`
returns a QuoteResult (with its user-visible warnings) and never fails;
the zero-per-box-mass specs are the ones the claim wrongly covered. -/
theorem calculate_total_safe (cat : Catalog) (spec : ProductSpec)
    (h : spec.gram_per_pouch * spec.pouch_per_box ≠ 0) :
    (calculate cat spec).isSome := by
  have ha := apply_moq_isSome cat spec h
  obtain ⟨⟨a, s2⟩, h2⟩ := Option.isSome_iff_exists.mp ha
  rw [calculate_eq cat spec a s2 h2]
  rfl

theorem calculate_total_safe_witness :
    specN.gram_per_pouch * specN.pouch_per_box ≠ 0 ∧ (calculate catP specN).isSome :=
  ⟨by norm_num [specN], calculate_total_safe catP specN (by norm_num [specN])⟩

/-- C1 counterexample: with the shipped MOQ rules (2000 boxes, 300 kg) and
a 0.125 kg/box spec for 100 boxes, the box floor raises to 2000 boxes
(250 kg), the mass floor then fires, and the code sets 2401 boxes even
though 2400 boxes already satisfy the 300 kg minimum — so the box count is
not raised to the minimum satisfying count (which the claim, combined with
the larger-of rule, would put at 2400). -/
theorem moq_minimality_counterexample :
    (calculate cat0 spec1cex).map (fun q => q.product_spec.boxes) = some 2401 ∧
    cat0.min_production_kg ≤ ({ spec1cex with boxes := 2400 } : ProductSpec).total_kg ∧
    (2400 : ℤ) < 2401 := by
  refine ⟨?_, by norm_num [cat0, spec1cex, ProductSpec.total_kg], by norm_num⟩
  have hm : (box_floor cat0 spec1cex).total_kg < cat0.min_production_kg := by
    unfold box_floor
    rw [if_pos (by norm_num [cat0, spec1cex])]
    norm_num [cat0, spec1cex, ProductSpec.total_kg]
  have hkg : spec1cex.gram_per_pouch * spec1cex.pouch_per_box / 1000 ≠ 0 := by
    norm_num [spec1cex]
  have ha := apply_moq_mass cat0 spec1cex hm hkg
  have hc := calculate_eq _ _ _ _ ha
  rw [hc]
  have hb : ({ box_floor cat0 spec1cex with
      boxes := max (box_floor cat0 spec1cex).boxes
        (pyInt (cat0.min_production_kg /
          (spec1cex.gram_per_pouch * spec1cex.pouch_per_box / 1000)) + 1) } :
      ProductSpec).boxes = 2401 := by
    have hpy : pyInt (cat0.min_production_kg /
        (spec1cex.gram_per_pouch * spec1cex.pouch_per_box / 1000)) = 2400 := by
      norm_num [cat0, spec1cex, pyInt]
    show max (box_floor cat0 spec1cex).boxes _ = 2401
    rw [hpy]
    have hfb : (box_floor cat0 spec1cex).boxes = 2000 := by
      unfold box_floor
      rw [if_pos (by norm_num [cat0, spec1cex])]
      rfl
    rw [hfb]
    norm_num
  exact congrArg (fun b => some b) hb

/-- C1 (amended): when the total mass after the box-count floor is still
below `min_kg` (and the per-box mass is nonzero, else the code divides by
zero), `_apply_moq` recomputes the box count as the truncated quotient
`min_kg / kg_per_box` plus one — the minimum count satisfying `min_kg`
only when the quotient is not exact, one above it otherwise — and raises
boxes to the larger of that and the possibly already-raised count; the two
floors compose, and the raised spec strictly exceeds the mass floor. -/
theorem moq_mass_floor_compose (cat : Catalog) (spec : ProductSpec)
    (hm : (box_floor cat spec).total_kg < cat.min_production_kg)
    (hkg : spec.gram_per_pouch * spec.pouch_per_box ≠ 0) :
    apply_moq cat spec = some (true, { box_floor cat spec with
      boxes := max (box_floor cat spec).boxes
        (pyInt (cat.min_production_kg /
          (spec.gram_per_pouch * spec.pouch_per_box / 1000)) + 1) }) ∧
    (calculate cat spec).map (fun q => q.product_spec.boxes) =
      some (max (box_floor cat spec).boxes
        (pyInt (cat.min_production_kg /
          (spec.gram_per_pouch * spec.pouch_per_box / 1000)) + 1)) ∧
    (0 < spec.gram_per_pouch * spec.pouch_per_box →
      cat.min_production_kg < ({ box_floor cat spec with
        boxes := max (box_floor cat spec).boxes
          (pyInt (cat.min_production_kg /
            (spec.gram_per_pouch * spec.pouch_per_box / 1000)) + 1) } :
        ProductSpec).total_kg) := by
  have hkg' : spec.gram_per_pouch * spec.pouch_per_box / 1000 ≠ 0 := by
    intro hc
    exact hkg (by field_simp at hc; linarith)
  have ha := apply_moq_mass cat spec hm hkg'
  refine ⟨ha, ?_, ?_⟩
  · rw [calculate_eq _ _ _ _ ha]
    rfl
  · intro hpos
    set c : ℚ := spec.gram_per_pouch * spec.pouch_per_box / 1000 with hc
    have hcpos : 0 < c := by
      rw [hc]
      positivity
    set b : ℤ := max (box_floor cat spec).boxes (pyInt (cat.min_production_kg / c) + 1)
      with hb
    have hble : pyInt (cat.min_production_kg / c) + 1 ≤ b := le_max_right _ _
    have hgt : (cat.min_production_kg / c : ℚ) < (b : ℚ) := by
      have h1 := lt_pyInt_add_one (cat.min_production_kg / c)
      have h2 : ((pyInt (cat.min_production_kg / c) + 1 : ℤ) : ℚ) ≤ (b : ℚ) := by
        exact_mod_cast hble
      push_cast at h2
      linarith
    have htk : ({ box_floor cat spec with boxes := b } : ProductSpec).total_kg = c * b := by
      show (box_floor cat spec).gram_per_pouch * (box_floor cat spec).pouch_per_box *
        (b : ℚ) / 1000 = c * b
      rw [box_floor_gram, box_floor_pouch, hc]
      ring
    rw [htk]
    calc cat.min_production_kg = c * (cat.min_production_kg / c) := by
          field_simp
      _ < c * b := by
          exact mul_lt_mul_of_pos_left hgt hcpos

theorem moq_mass_floor_compose_witness :
    (box_floor cat0 spec1cex).total_kg < cat0.min_production_kg ∧
    spec1cex.gram_per_pouch * spec1cex.pouch_per_box ≠ 0 ∧
    apply_moq cat0 spec1cex = some (true, { box_floor cat0 spec1cex with
      boxes := max (box_floor cat0 spec1cex).boxes
        (pyInt (cat0.min_production_kg /
          (spec1cex.gram_per_pouch * spec1cex.pouch_per_box / 1000)) + 1) }) ∧
    (0 < spec1cex.gram_per_pouch * spec1cex.pouch_per_box →
      cat0.min_production_kg < ({ box_floor cat0 spec1cex with
        boxes := max (box_floor cat0 spec1cex).boxes
          (pyInt (cat0.min_production_kg /
            (spec1cex.gram_per_pouch * spec1cex.pouch_per_box / 1000)) + 1) } :
        ProductSpec).total_kg) := by
  have hm : (box_floor cat0 spec1cex).total_kg < cat0.min_production_kg := by
    unfold box_floor
    rw [if_pos (by norm_num [cat0, spec1cex])]
    norm_num [cat0, spec1cex, ProductSpec.total_kg]
  have hkg : spec1cex.gram_per_pouch * spec1cex.pouch_per_box ≠ 0 := by
    norm_num [spec1cex]
  have main := moq_mass_floor_compose cat0 spec1cex hm hkg
  exact ⟨hm, hkg, main.1, main.2.2⟩

/-- C4: every ingredient line cost is the integer truncation of
`total_kg × ratio/100 × price_per_kg`, the total ingredient cost is the
sum of those truncated per-item costs, and a single ingredient at ratio
100 over `K` kg priced `P` per kg costs exactly `⌊K × P⌋`. -/
theorem ingredient_cost_truncation (cat : Catalog) (rs : List (String × ℚ))
    (K Ks : ℚ) (n : String) (P : ℤ)
    (hp : cat.price_of n = some P) (hK : 0 ≤ Ks) (hP : 0 ≤ P) :
    (calculate_ingredient_cost cat rs K).details.map (fun d => d.cost) =
      rs.filterMap (fun p => (cat.price_of p.1).map
        (fun pr => pyInt (K * (p.2 / 100) * pr))) ∧
    (calculate_ingredient_cost cat rs K).total_cost =
      (rs.filterMap (fun p => (cat.price_of p.1).map
        (fun pr => pyInt (K * (p.2 / 100) * pr)))).sum ∧
    (calculate_ingredient_cost cat [(n, 100)] Ks).total_cost = ⌊Ks * (P : ℚ)⌋ := by
  obtain ⟨hc1, hc2⟩ := ing_loop_costs cat K rs
  refine ⟨hc1, hc2, ?_⟩
  show (ingredient_cost_loop cat Ks [(n, 100)]).total_cost = ⌊Ks * (P : ℚ)⌋
  unfold ingredient_cost_loop
  rw [hp]
  show pyInt (Ks * ((100 : ℚ) / 100) * P) + (ingredient_cost_loop cat Ks []).total_cost
    = ⌊Ks * (P : ℚ)⌋
  have h1 : Ks * ((100 : ℚ) / 100) * P = Ks * (P : ℚ) := by norm_num
  rw [h1, pyInt_of_nonneg (mul_nonneg hK (by exact_mod_cast hP))]
  show ⌊Ks * (P : ℚ)⌋ + 0 = ⌊Ks * (P : ℚ)⌋
  rw [add_zero]

theorem ingredient_cost_truncation_witness :
    catP.price_of "차전자피분말" = some 15000 ∧ (0 ≤ (450 : ℚ)) ∧ (0 ≤ (15000 : ℤ)) ∧
    (calculate_ingredient_cost catP [("차전자피분말", 80), ("Unobtainium", 20)]
        450).total_cost =
      ([("차전자피분말", (80 : ℚ)), ("Unobtainium", 20)].filterMap
        (fun p => (catP.price_of p.1).map
          (fun pr => pyInt ((450 : ℚ) * (p.2 / 100) * pr)))).sum ∧
    (calculate_ingredient_cost catP [("차전자피분말", 100)] 450).total_cost =
      ⌊(450 : ℚ) * ((15000 : ℤ) : ℚ)⌋ := by
  have hp : catP.price_of "차전자피분말" = some 15000 := by
    unfold catP
    simp
  have main := ingredient_cost_truncation catP
    [("차전자피분말", (80 : ℚ)), ("Unobtainium", 20)] 450 450 "차전자피분말" 15000
    hp (by norm_num) (by norm_num)
  exact ⟨hp, by norm_num, by norm_num, main.2.1, main.2.2⟩

theorem apply_moq_isSome_ratios (cat : Catalog) (spec : ProductSpec)
    (rs' : List (String × ℚ)) :
    (apply_moq cat { spec with ingredient_ratios := rs' }).isSome =
      (apply_moq cat spec).isSome := by
  unfold apply_moq ProductSpec.total_kg
  dsimp only
  split_ifs <;> rfl

/-- C7: an ingredient with no catalog price is collected into
`missing_ingredients`, never appears among the priced detail lines, its
line contributes nothing to the ingredient cost sum, the missing-names
warning is recorded on the QuoteResult, and `calculate` still returns a
result no matter what the ratio list holds. -/
theorem missing_ingredients_skipped (cat : Catalog) (spec : ProductSpec)
    (q : QuoteResult) (n : String) (r : ℚ) (K : ℚ)
    (rs1 rs2 ratios2 : List (String × ℚ))
    (hq : calculate cat spec = some q)
    (hsplit : spec.ingredient_ratios = rs1 ++ (n, r) :: rs2)
    (hnone : cat.price_of n = none) :
    n ∈ (calculate_ingredient_cost cat spec.ingredient_ratios K).missing_ingredients ∧
    n ∉ q.ingredient_details.map (fun d => d.name) ∧
    missing_warning
        ((calculate_ingredient_cost cat spec.ingredient_ratios K).missing_ingredients)
      ∈ q.warnings ∧
    (calculate_ingredient_cost cat spec.ingredient_ratios K).total_cost =
      (calculate_ingredient_cost cat (rs1 ++ rs2) K).total_cost ∧
    (calculate cat { spec with ingredient_ratios := ratios2 }).isSome := by
  have hmem : (n, r) ∈ spec.ingredient_ratios := by
    rw [hsplit]
    exact List.mem_append_right _ (List.mem_cons_self _ _)
  have part1 : n ∈ (calculate_ingredient_cost cat spec.ingredient_ratios K).missing_ingredients :=
    ing_loop_missing_mem cat K n r hnone _ hmem
  cases ha : apply_moq cat spec with
  | none =>
    unfold calculate at hq
    rw [ha] at hq
    cases hq
  | some p =>
    obtain ⟨a, s2⟩ := p
    have hratios : s2.ingredient_ratios = spec.ingredient_ratios :=
      apply_moq_ratios_preserved cat spec a s2 ha
    rw [calculate_eq _ _ _ _ ha] at hq
    injection hq with hq
    subst hq
    refine ⟨part1, ?_, ?_, ?_, ?_⟩
    · intro hin
      dsimp only at hin
      rcases List.mem_map.mp hin with ⟨d, hd, hdn⟩
      exact ing_loop_details_priced cat s2.total_kg s2.ingredient_ratios d hd (hdn ▸ hnone)
    · dsimp only
      have hmiss_eq :
          (calculate_ingredient_cost cat s2.ingredient_ratios s2.total_kg).missing_ingredients =
            (calculate_ingredient_cost cat spec.ingredient_ratios K).missing_ingredients := by
        rw [hratios]
        exact ing_loop_missing_indep cat s2.total_kg K spec.ingredient_ratios
      have hne :
          (calculate_ingredient_cost cat s2.ingredient_ratios s2.total_kg).missing_ingredients
            ≠ [] := by
        rw [hmiss_eq]
        intro hcon
        rw [hcon] at part1
        cases part1
      rw [if_pos hne, hmiss_eq]
      exact List.mem_append_left _ (List.mem_append_right _ (List.mem_singleton_self _))
    · rw [hsplit]
      exact ing_loop_skip cat K n r hnone rs1 rs2
    · have hsome : (apply_moq cat { spec with ingredient_ratios := ratios2 }).isSome := by
        rw [apply_moq_isSome_ratios, ha]
        rfl
      obtain ⟨⟨a2, s22⟩, h22⟩ := Option.isSome_iff_exists.mp hsome
      rw [calculate_eq _ _ _ _ h22]
      rfl

theorem missing_ingredients_skipped_witness :
    specM.ingredient_ratios = [("차전자피분말", (80 : ℚ))] ++ ("Unobtainium", (20 : ℚ)) :: [] ∧
    catP.price_of "Unobtainium" = none ∧
    "Unobtainium" ∈
      (calculate_ingredient_cost catP specM.ingredient_ratios 1250).missing_ingredients ∧
    "Unobtainium" ∉
      ((calculate catP specM).getD defaultQuote).ingredient_details.map (fun d => d.name) ∧
    missing_warning
        ((calculate_ingredient_cost catP specM.ingredient_ratios 1250).missing_ingredients)
      ∈ ((calculate catP specM).getD defaultQuote).warnings ∧
    (calculate_ingredient_cost catP specM.ingredient_ratios 1250).total_cost =
      (calculate_ingredient_cost catP ([("차전자피분말", (80 : ℚ))] ++ []) 1250).total_cost ∧
    (calculate catP { specM with ingredient_ratios := [] }).isSome := by
  have h1 : catP.default_moq_boxes ≤ specM.boxes := by norm_num [catP, specM]
  have h2 : catP.min_production_kg ≤ specM.total_kg := by
    norm_num [catP, specM, ProductSpec.total_kg]
  have ha := apply_moq_no_adjust catP specM (not_lt.mpr h1) (not_lt.mpr h2)
  have hc := calculate_eq catP specM false specM ha
  have hq : calculate catP specM = some ((calculate catP specM).getD defaultQuote) := by
    rw [hc]
    rfl
  have hsplit : specM.ingredient_ratios =
      [("차전자피분말", (80 : ℚ))] ++ ("Unobtainium", (20 : ℚ)) :: [] := rfl
  have hnone : catP.price_of "Unobtainium" = none := by
    unfold catP
    simp
  have main := missing_ingredients_skipped catP specM _ "Unobtainium" 20 1250
    [("차전자피분말", (80 : ℚ))] [] [] hq hsplit hnone
  exact ⟨hsplit, hnone, main.1, main.2.1, main.2.2.1, main.2.2.2.1, main.2.2.2.2⟩

/-- C9 counterexample: with fallback disabled, a known and available
primary provider that returns no results makes `search` return the
PRIMARY provider's name alongside the empty list — not an empty provider
name as claimed. -/
theorem search_name_counterexample :
    SearchManager.search env9 (some "DDGS") false = ([], "DDGS") ∧
    ("DDGS" : String) ≠ "" := by
  constructor
  · unfold SearchManager.search
    dsimp only
    rw [if_neg (by decide : ¬ ("DDGS" : String) = "")]
    rw [if_pos (by decide : ("DDGS" : String) ∈ SEARCH_PROVIDER_NAMES)]
    rw [if_pos (by rfl : env9.available "DDGS" = true)]
    rw [if_neg (by simp [env9] : ¬ env9.results "DDGS" ≠ [])]
    rw [if_neg (by simp : ¬ (false : Bool) = true)]
  · decide

/-- C9 (amended): `search` returns an empty list and empty provider name
when every provider fails and fallback is enabled, and when fallback is
disabled with an unknown (non-empty) primary name; but with fallback
disabled and a known, available primary returning nothing it returns the
primary's (non-empty) name; with fallback disabled and a known but
unavailable primary the fallback order is consulted anyway; and with
fallback enabled providers are tried in the fixed order
[DDGS, Brave, Tavily, Google], skipping the already-tried primary,
stopping at the first non-empty result. -/
theorem search_fallback_contract
    (envA : SearchEnv) (pnA : String)
    (hA : ∀ n ∈ FALLBACK_ORDER, envA.results n = [])
    (envB : SearchEnv) (pnB : String)
    (hB1 : pnB ∈ SEARCH_PROVIDER_NAMES) (hB2 : envB.available pnB = true)
    (hB3 : envB.results pnB = [])
    (envC : SearchEnv) (pnC : String) (hC0 : pnC ≠ "")
    (hC : pnC ∉ SEARCH_PROVIDER_NAMES)
    (envD : SearchEnv) (pnD m : String) (l1 l2 : List String)
    (hD1 : FALLBACK_ORDER = l1 ++ m :: l2)
    (hD2 : ∀ x ∈ l1, x = pnD ∨ envD.available x = false ∨ envD.results x = [])
    (hD3 : m ≠ pnD) (hD4 : envD.available m = true) (hD5 : envD.results m ≠ [])
    (hD6 : envD.results pnD = [])
    (envE : SearchEnv) (pnE : String)
    (hE1 : pnE ∈ SEARCH_PROVIDER_NAMES) (hE2 : envE.available pnE = false) :
    SearchManager.search envA (some pnA) true = ([], "") ∧
    SearchManager.search envB (some pnB) false = ([], pnB) ∧
    SearchManager.search envC (some pnC) false = ([], "") ∧
    SearchManager.search envD (some pnD) true = (envD.results m, m) ∧
    SearchManager.search envE (some pnE) false = SearchManager.search envE (some pnE) true := by
  have horder : SEARCH_PROVIDER_NAMES = FALLBACK_ORDER := rfl
  have hD2' : ∀ x ∈ l1, (some pnD : Option String) = some x ∨
      envD.available x = false ∨ envD.results x = [] := by
    intro x hx
    rcases hD2 x hx with hx1 | hx2 | hx3
    · exact Or.inl (by rw [hx1])
    · exact Or.inr (Or.inl hx2)
    · exact Or.inr (Or.inr hx3)
  refine ⟨?_, ?_, ?_, ?_, ?_⟩
  · unfold SearchManager.search
    dsimp only
    by_cases he : pnA = ""
    · rw [if_pos he]
      exact fallback_loop_all_empty envA none FALLBACK_ORDER hA
    · rw [if_neg he]
      by_cases hk : pnA ∈ SEARCH_PROVIDER_NAMES
      · rw [if_pos hk]
        by_cases hav : envA.available pnA = true
        · rw [if_pos hav]
          rw [if_neg (by simp [hA pnA (horder ▸ hk)] : ¬ envA.results pnA ≠ [])]
          rw [if_pos rfl]
          exact fallback_loop_all_empty envA (some pnA) FALLBACK_ORDER hA
        · rw [if_neg hav]
          exact fallback_loop_all_empty envA (some pnA) FALLBACK_ORDER hA
      · rw [if_neg hk, if_pos rfl]
        exact fallback_loop_all_empty envA (some pnA) FALLBACK_ORDER hA
  · have he : pnB ≠ "" := by
      intro hcon
      rw [hcon] at hB1
      revert hB1
      decide
    unfold SearchManager.search
    dsimp only
    rw [if_neg he, if_pos hB1, if_pos hB2]
    rw [if_neg (by simp [hB3] : ¬ envB.results pnB ≠ [])]
    rw [if_neg (by simp : ¬ (false : Bool) = true)]
  · unfold SearchManager.search
    dsimp only
    rw [if_neg hC0, if_neg hC]
    rw [if_neg (by simp : ¬ (false : Bool) = true)]
  · have hskip : (some pnD : Option String) ≠ some m := by
      intro hcon
      exact hD3 (Option.some.injEq .. ▸ hcon.symm)
    unfold SearchManager.search
    dsimp only
    by_cases he : pnD = ""
    · rw [if_pos he]
      rw [hD1]
      refine fallback_loop_first_hit envD none m (by simp) hD4 hD5 l1 l2 ?_
      intro x hx
      rcases hD2 x hx with hx1 | hx2 | hx3
      · exfalso
        have hxo : x ∈ FALLBACK_ORDER := by
          rw [hD1]
          exact List.mem_append_left _ hx
        have hxe : x ≠ "" := by
          revert hxo
          have hall : ∀ y ∈ FALLBACK_ORDER, y ≠ "" := by decide
          exact fun h => hall x h
        exact hxe (hx1.trans he)
      · exact Or.inr (Or.inl hx2)
      · exact Or.inr (Or.inr hx3)
    · rw [if_neg he]
      by_cases hk : pnD ∈ SEARCH_PROVIDER_NAMES
      · rw [if_pos hk]
        by_cases hav : envD.available pnD = true
        · rw [if_pos hav]
          rw [if_neg (by simp [hD6] : ¬ envD.results pnD ≠ [])]
          rw [if_pos rfl, hD1]
          exact fallback_loop_first_hit envD (some pnD) m hskip hD4 hD5 l1 l2 hD2'
        · rw [if_neg hav, hD1]
          exact fallback_loop_first_hit envD (some pnD) m hskip hD4 hD5 l1 l2 hD2'
      · rw [if_neg hk, if_pos rfl, hD1]
        exact fallback_loop_first_hit envD (some pnD) m hskip hD4 hD5 l1 l2 hD2'
  · have he : pnE ≠ "" := by
      intro hcon
      rw [hcon] at hE1
      revert hE1
      decide
    have hav : ¬ envE.available pnE = true := by
      rw [hE2]
      decide
    unfold SearchManager.search
    dsimp only
    rw [if_neg he, if_pos hE1, if_neg hav, if_neg he, if_pos hE1, if_neg hav]

theorem search_fallback_contract_witness :
    (∀ n ∈ FALLBACK_ORDER, envEmptyAll.results n = []) ∧
    ("Brave" : String) ∈ SEARCH_PROVIDER_NAMES ∧
    envEmptyAll.available "Brave" = true ∧
    envEmptyAll.results "Brave" = [] ∧
    ("Naver" : String) ≠ "" ∧
    ("Naver" : String) ∉ SEARCH_PROVIDER_NAMES ∧
    FALLBACK_ORDER = ["DDGS"] ++ "Brave" :: ["Tavily", "Google"] ∧
    (∀ x ∈ (["DDGS"] : List String),
      x = "DDGS" ∨ envHit.available x = false ∨ envHit.results x = []) ∧
    ("Brave" : String) ≠ "DDGS" ∧
    envHit.available "Brave" = true ∧
    envHit.results "Brave" ≠ [] ∧
    envHit.results "DDGS" = [] ∧
    ("Tavily" : String) ∈ SEARCH_PROVIDER_NAMES ∧
    envHit.available "Tavily" = false ∧
    (SearchManager.search envEmptyAll (some "DDGS") true = ([], "") ∧
     SearchManager.search envEmptyAll (some "Brave") false = ([], "Brave") ∧
     SearchManager.search envEmptyAll (some "Naver") false = ([], "") ∧
     SearchManager.search envHit (some "DDGS") true = (envHit.results "Brave", "Brave") ∧
     SearchManager.search envHit (some "Tavily") false =
       SearchManager.search envHit (some "Tavily") true) :=
  ⟨by decide, by decide, rfl, rfl, by decide, by decide, rfl, by decide, by decide,
   rfl, by decide, rfl, by decide, rfl,
   search_fallback_contract envEmptyAll "DDGS" (by decide)
     envEmptyAll "Brave" (by decide) rfl rfl
     envEmptyAll "Naver" (by decide) (by decide)
     envHit "DDGS" "Brave" ["DDGS"] ["Tavily", "Google"] rfl (by decide) (by decide) rfl
       (by decide) rfl
     envHit "Tavily" (by decide) rfl⟩

/-- C10 counterexample: for the unknown provider name "Claude",
`LLMManager.generate` returns a response whose content is the Korean
unknown-provider message — not empty content as the claim states. -/
theorem llm_content_counterexample :
    (LLMManager.generate env10 "Claude").content = "알 수 없는 Provider: Claude" ∧
    (LLMManager.generate env10 "Claude").content ≠ "" := by
  constructor <;> decide

/-- C10 (amended): for an unknown provider name `generate` returns (without
raising) a response whose content is the unknown-provider error message,
with empty model id and zero token counts; for a known provider without
credentials it returns the missing-key error message with that provider's
model id and zero token counts.  In neither case is the content empty. -/
theorem llm_error_response
    (envA : LLMEnv) (pnA : String) (hA : pnA ∉ LLM_PROVIDER_NAMES)
    (envB : LLMEnv) (pnB : String)
    (hB1 : pnB ∈ LLM_PROVIDER_NAMES) (hB2 : envB.available pnB = false) :
    LLMManager.generate envA pnA =
      ⟨"알 수 없는 Provider: " ++ pnA, "", 0, 0, 0⟩ ∧
    LLMManager.generate envB pnB =
      ⟨pnB ++ " API 키가 설정되지 않았습니다.", llm_model_id pnB, 0, 0, 0⟩ := by
  constructor
  · unfold LLMManager.generate
    rw [if_pos hA]
  · unfold LLMManager.generate
    rw [if_neg (by simp [hB1] : ¬ pnB ∉ LLM_PROVIDER_NAMES)]
    rw [if_pos hB2]

theorem llm_error_response_witness :
    ("Claude" : String) ∉ LLM_PROVIDER_NAMES ∧
    ("GPT-5-nano" : String) ∈ LLM_PROVIDER_NAMES ∧
    env10.available "GPT-5-nano" = false ∧
    (LLMManager.generate env10 "Claude" =
      ⟨"알 수 없는 Provider: " ++ "Claude", "", 0, 0, 0⟩ ∧
     LLMManager.generate env10 "GPT-5-nano" =
      ⟨"GPT-5-nano" ++ " API 키가 설정되지 않았습니다.", llm_model_id "GPT-5-nano", 0, 0, 0⟩) :=
  ⟨by decide, by decide, rfl,
   llm_error_response env10 "Claude" (by decide) env10 "GPT-5-nano" (by decide) rfl⟩

theorem corrected_bound (r' x rest : ℚ) :
    |(round1 (round1 x + round1 (r' - (round1 x + rest))) + rest) - r'| ≤ 1/10 := by
  rw [round1_add_round1]
  have h := round1_dist (r' - (round1 x + rest))
  rw [abs_le] at h ⊢
  obtain ⟨ha, hb⟩ := h
  constructor <;> linarith

theorem uncorrected_bound (r' total : ℚ) (h : round1 (r' - total) = 0) :
    |total - r'| ≤ 1/10 := by
  have h2 := round1_eq_zero_bound h
  rw [abs_le] at h2 ⊢
  obtain ⟨ha, hb⟩ := h2
  constructor <;> linarith

theorem small_remaining_bound (r' : ℚ) (hpos : 0 < r')
    (h : round1 ((10 : ℚ) * (r' / 20)) = 0) : |(0 : ℚ) - r'| ≤ 1/10 := by
  have h2 := round1_eq_zero_bound h
  rw [abs_le] at h2 ⊢
  obtain ⟨ha, hb⟩ := h2
  constructor <;> linarith

/-- C6: for `0 ≤ r < 100`, the recommended excipient shares sum to
`100 − r` within the one-decimal tolerance 0.1 (the residual being
credited to the largest share by the correction step of the source), and
for `r ≥ 100` the recommendation is empty. -/
theorem excipient_sum (r r2 : ℚ) (_h0 : 0 ≤ r) (h1 : r < 100) (h2 : 100 ≤ r2) :
    |((recommend_excipients r).map (fun p => p.2)).sum - (100 - r)| ≤ 1/10 ∧
    recommend_excipients r2 = [] := by
  constructor
  · have hn : ¬ 100 ≤ r := not_le.mpr h1
    have hr' : 0 < 100 - r := by linarith
    have htd : ((DEFAULT_EXCIPIENTS.map (fun p => p.2)).sum : ℚ) = 20 := by
      norm_num [DEFAULT_EXCIPIENTS]
    unfold recommend_excipients
    rw [if_neg hn]
    simp only [htd]
    simp only [show DEFAULT_EXCIPIENTS = [("결정셀룰로스", (10 : ℚ)), ("정제포도당", 8),
        ("이산화규소", 1), ("스테아린산마그네슘", 1)] from rfl,
      List.filterMap_cons, List.filterMap_nil]
    by_cases hc1 : 0 < round1 ((10 : ℚ) * ((100 - r) / 20))
    · by_cases hc2 : 0 < round1 ((8 : ℚ) * ((100 - r) / 20))
      · by_cases hc3 : 0 < round1 ((1 : ℚ) * ((100 - r) / 20))
        · simp only [if_pos hc1, if_pos hc2, if_pos hc3, List.map_cons, List.map_nil,
            List.sum_cons, List.sum_nil]
          split_ifs with hif
          · rw [py_max_entry_head "결정셀룰로스" (round1 ((10 : ℚ) * ((100 - r) / 20)))
              [("정제포도당", round1 ((8 : ℚ) * ((100 - r) / 20))), ("이산화규소", round1 ((1 : ℚ) * ((100 - r) / 20))), ("스테아린산마그네슘", round1 ((1 : ℚ) * ((100 - r) / 20)))] (by
                intro e he
                simp only [List.mem_cons, List.not_mem_nil, or_false] at he
                rcases he with rfl | rfl | rfl <;>
                  exact round1_mono (by linarith))]
            dsimp only
            rw [set_value_head "결정셀룰로스" (round1 ((10 : ℚ) * ((100 - r) / 20))) _
              [("정제포도당", round1 ((8 : ℚ) * ((100 - r) / 20))), ("이산화규소", round1 ((1 : ℚ) * ((100 - r) / 20))), ("스테아린산마그네슘", round1 ((1 : ℚ) * ((100 - r) / 20)))] (by
                intro e he
                simp only [List.mem_cons, List.not_mem_nil, or_false] at he
                rcases he with rfl | rfl | rfl <;> simp)]
            simp only [List.map_cons, List.map_nil, List.sum_cons, List.sum_nil]
            exact corrected_bound (100 - r) ((10 : ℚ) * ((100 - r) / 20))
              (round1 ((8 : ℚ) * ((100 - r) / 20)) +
                (round1 ((1 : ℚ) * ((100 - r) / 20)) +
                  (round1 ((1 : ℚ) * ((100 - r) / 20)) + 0)))
          · have hd : round1 ((100 - r) -
                (round1 ((10 : ℚ) * ((100 - r) / 20)) +
                  (round1 ((8 : ℚ) * ((100 - r) / 20)) +
                    (round1 ((1 : ℚ) * ((100 - r) / 20)) +
                      (round1 ((1 : ℚ) * ((100 - r) / 20)) + 0))))) = 0 := by
              rcases not_and_or.mp hif with h | h
              · exact not_not.mp h
              · simp at h
            exact uncorrected_bound (100 - r) _ hd
        · simp only [if_pos hc1, if_pos hc2, if_neg hc3, List.map_cons, List.map_nil,
            List.sum_cons, List.sum_nil]
          split_ifs with hif
          · rw [py_max_entry_head "결정셀룰로스" (round1 ((10 : ℚ) * ((100 - r) / 20)))
              [("정제포도당", round1 ((8 : ℚ) * ((100 - r) / 20)))] (by
                intro e he
                simp only [List.mem_cons, List.not_mem_nil, or_false] at he
                rcases he with rfl
                exact round1_mono (by linarith))]
            dsimp only
            rw [set_value_head "결정셀룰로스" (round1 ((10 : ℚ) * ((100 - r) / 20))) _
              [("정제포도당", round1 ((8 : ℚ) * ((100 - r) / 20)))] (by
                intro e he
                simp only [List.mem_cons, List.not_mem_nil, or_false] at he
                rcases he with rfl
                simp)]
            simp only [List.map_cons, List.map_nil, List.sum_cons, List.sum_nil]
            exact corrected_bound (100 - r) ((10 : ℚ) * ((100 - r) / 20))
              (round1 ((8 : ℚ) * ((100 - r) / 20)) + 0)
          · have hd : round1 ((100 - r) -
                (round1 ((10 : ℚ) * ((100 - r) / 20)) +
                  (round1 ((8 : ℚ) * ((100 - r) / 20)) + 0))) = 0 := by
              rcases not_and_or.mp hif with h | h
              · exact not_not.mp h
              · simp at h
            exact uncorrected_bound (100 - r) _ hd
      · have hc3 : ¬ (0 < round1 ((1 : ℚ) * ((100 - r) / 20))) := fun hcon =>
          hc2 (lt_of_lt_of_le hcon (round1_mono (by linarith)))
        simp only [if_pos hc1, if_neg hc2, if_neg hc3, List.map_cons, List.map_nil,
          List.sum_cons, List.sum_nil]
        split_ifs with hif
        · rw [py_max_entry_head "결정셀룰로스" (round1 ((10 : ℚ) * ((100 - r) / 20)))
            [] (by intro e he; cases he)]
          dsimp only
          rw [set_value_head "결정셀룰로스" (round1 ((10 : ℚ) * ((100 - r) / 20))) _
            [] (by intro e he; cases he)]
          simp only [List.map_cons, List.map_nil, List.sum_cons, List.sum_nil]
          exact corrected_bound (100 - r) ((10 : ℚ) * ((100 - r) / 20)) 0
        · have hd : round1 ((100 - r) -
              (round1 ((10 : ℚ) * ((100 - r) / 20)) + 0)) = 0 := by
            rcases not_and_or.mp hif with h | h
            · exact not_not.mp h
            · simp at h
          exact uncorrected_bound (100 - r) _ hd
    · have h1z : round1 ((10 : ℚ) * ((100 - r) / 20)) = 0 :=
        le_antisymm (not_lt.mp hc1) (round1_nonneg (by linarith))
      have hc2 : ¬ (0 < round1 ((8 : ℚ) * ((100 - r) / 20))) := fun hcon =>
        hc1 (lt_of_lt_of_le hcon (round1_mono (by linarith)))
      have hc3 : ¬ (0 < round1 ((1 : ℚ) * ((100 - r) / 20))) := fun hcon =>
        hc1 (lt_of_lt_of_le hcon (round1_mono (by linarith)))
      simp only [if_neg hc1, if_neg hc2, if_neg hc3, List.map_nil, List.sum_nil]
      have hb := small_remaining_bound (100 - r) hr'
        (by rw [show (10 : ℚ) * ((100 - r) / 20) = (100 - r) / 2 by ring] at h1z ⊢; exact h1z)
      simpa using hb
  · unfold recommend_excipients
    rw [if_pos h2]

theorem excipient_sum_witness :
    (0 ≤ (80 : ℚ)) ∧ ((80 : ℚ) < 100) ∧ ((100 : ℚ) ≤ 100) ∧
    (|((recommend_excipients 80).map (fun p => p.2)).sum - (100 - 80)| ≤ 1/10 ∧
     recommend_excipients (100 : ℚ) = []) :=
  ⟨by norm_num, by norm_num, by norm_num,
   excipient_sum 80 100 (by norm_num) (by norm_num) (by norm_num)⟩
